import Mathlib

/-!
Verification of the ts-pilot repository: a shallow embedding of its two
implementation files (the MCP dispatch server and the `TypeGenerator` /
`FrameworkPatterns` engines) as executable Lean definitions, together with
theorems settling the specification claims.

Conventions used throughout:
* JavaScript strings are Lean `String`s; `s.includes(sub)` is `strIncludes`.
* JavaScript runtime values reaching the type generator are the inductive
  `JsValue` (JSON values plus the `undefined` / `bigint` / `symbol` runtime
  tags the source inspects).
* `JSON.parse` is an external platform function; it is passed in as an
  explicit `parse : String → Except String JsValue` argument.
* Thrown exceptions are `Except.error` carrying the message.
* Literal braces inside string literals are written with `\x7b` / `\x7d`
  escapes.
-/

/-- Substring occurrence on character lists: `hasSub p l` is true when `p`
occurs contiguously inside `l`. Models JavaScript `String.prototype.includes`. -/
def hasSub (p : List Char) : List Char → Bool
  | [] => p.isEmpty
  | c :: l => p.isPrefixOf (c :: l) || hasSub p l

/-- JavaScript `s.includes(sub)`. -/
def strIncludes (s sub : String) : Bool := hasSub sub.data s.data

/-- Join a list of strings with a separator. Models JavaScript
`Array.prototype.join(sep)`. -/
def joinSep (sep : String) : List String → String
  | [] => ""
  | [x] => x
  | x :: xs => x ++ sep ++ joinSep sep xs

/-- First-seen de-duplication with an accumulator of already-seen elements.
Models the JavaScript idiom `[...new Set(list)]`, which keeps the first
occurrence of each element in insertion order. -/
def dedupFirst (seen : List String) : List String → List String
  | [] => []
  | x :: xs => if seen.contains x then dedupFirst seen xs else x :: dedupFirst (x :: seen) xs

/-- The apostrophe character, used by the quoted-identifier captures of the
diagnostic regular expressions. -/
def quoteChar : Char := Char.ofNat 39

/-- Consume a literal prefix: `dropLit p l` returns the remainder of `l`
after the literal `p`, or `none` when `p` is not a prefix of `l`. -/
def dropLit : List Char → List Char → Option (List Char)
  | [], l => some l
  | _ :: _, [] => none
  | c :: p, d :: l => if c = d then dropLit p l else none

/-- Split a character list at the first apostrophe, returning the (possibly
empty) run of non-apostrophe characters before it and the remainder after
it; `none` when no apostrophe occurs. This is the deterministic reading of
the regular-expression fragment `([^']+)'` used by the diagnostic engine
(the capture is validated as non-empty at the call sites). -/
def splitAtQuote : List Char → Option (List Char × List Char)
  | [] => none
  | c :: rest =>
    if c = quoteChar then some ([], rest)
    else
      match splitAtQuote rest with
      | some (pre, post) => some (c :: pre, post)
      | none => none

/-- Try a positional matcher at every start position, left to right, as a
regular-expression search does; returns the first success. -/
def scanFor {α : Type} (f : List Char → Option α) : List Char → Option α
  | [] => f []
  | c :: rest =>
    match f (c :: rest) with
    | some a => some a
    | none => scanFor f rest

/-- Positional matcher for `/Property '([^']+)' does not exist on type '([^']+)'/`:
both character classes exclude the apostrophe, so the greedy captures are
exactly the runs up to the next apostrophe and no backtracking can occur. -/
def matchPropertyAt (l : List Char) : Option (String × String) :=
  match dropLit ("Property '".data) l with
  | none => none
  | some l1 =>
    match splitAtQuote l1 with
    | none => none
    | some (prop, l2) =>
      if prop.isEmpty then none
      else
        match dropLit (" does not exist on type '".data) l2 with
        | none => none
        | some l3 =>
          match splitAtQuote l3 with
          | none => none
          | some (ty, _) =>
            if ty.isEmpty then none else some (⟨prop⟩, ⟨ty⟩)

/-- Search model of `error.match(/Property '([^']+)' does not exist on type '([^']+)'/)`. -/
def matchProperty (s : String) : Option (String × String) :=
  scanFor matchPropertyAt s.data

/-- Positional matcher for `/Cannot find name '([^']+)'/`. -/
def matchCannotFindAt (l : List Char) : Option String :=
  match dropLit ("Cannot find name '".data) l with
  | none => none
  | some l1 =>
    match splitAtQuote l1 with
    | none => none
    | some (nm, _) => if nm.isEmpty then none else some ⟨nm⟩

/-- Search model of `error.match(/Cannot find name '([^']+)'/)`. -/
def matchCannotFind (s : String) : Option String :=
  scanFor matchCannotFindAt s.data

/-! ## TypeGenerator (src `type-generator.ts`) -/

/-- Options record of `TypeGenerator.generate`; every field is optional. -/
structure TypeGenerationOptions where
  name : Option String := none
  strict : Option Bool := none
  readonly : Option Bool := none
  exactOptionalPropertyTypes : Option Bool := none
deriving DecidableEq

mutual
/-- Runtime values reaching the type generator: the JSON values plus the
extra runtime tags (`undefined`, `bigint`, `symbol`) that
`inferType` / `inferPrimitiveType` inspect via `typeof`. Arrays and objects
are mutually-defined list types so that all recursion below is structural. -/
inductive JsValue where
  | null
  | undef
  | bool (b : Bool)
  | num (q : Rat)
  | str (s : String)
  | bigint (i : Int)
  | sym (s : String)
  | arr (elems : JsArr)
  | obj (fields : JsObj)

/-- Array of runtime values (in element order). -/
inductive JsArr where
  | nil
  | cons (v : JsValue) (rest : JsArr)

/-- Object as its own-key/value entries (in insertion order, as
`Object.entries` enumerates them). -/
inductive JsObj where
  | nil
  | cons (k : String) (v : JsValue) (rest : JsObj)
end

/-- Character class `[a-zA-Z_$]`, the first character of a bare identifier. -/
def isIdentStartChar (c : Char) : Bool := c.isAlpha || c = '_' || c = '$'

/-- Character class `[a-zA-Z0-9_$]`, the remaining characters of a bare identifier. -/
def isIdentChar (c : Char) : Bool := c.isAlphanum || c = '_' || c = '$'

/-- Anchored test of `/^[a-zA-Z_$][a-zA-Z0-9_$]*$/` on a key. -/
def validIdentifier (key : String) : Bool :=
  match key.data with
  | [] => false
  | c :: rest => isIdentStartChar c && rest.all isIdentChar

/-- The fixed reserved-word list of `TypeGenerator.isReservedWord`. -/
def reservedWords : List String :=
  ["break", "case", "catch", "class", "const", "continue", "debugger", "default",
   "delete", "do", "else", "enum", "export", "extends", "false", "finally", "for",
   "function", "if", "import", "in", "instanceof", "new", "null", "return",
   "super", "switch", "this", "throw", "true", "try", "typeof", "var", "void",
   "while", "with", "as", "implements", "interface", "let", "package", "private",
   "protected", "public", "static", "yield", "any", "boolean", "constructor",
   "declare", "get", "module", "require", "number", "set", "string", "symbol",
   "type", "from", "of"]

/-- `TypeGenerator.isReservedWord`. -/
def isReservedWord (word : String) : Bool := reservedWords.contains word

/-- `TypeGenerator.needsQuotes`: a key needs quotes when it is not a valid
bare identifier or collides with a reserved word. -/
def needsQuotes (key : String) : Bool := !(validIdentifier key) || isReservedWord key

/-- Rendering of an object key: quoted exactly when `needsQuotes` holds
(the `safeKey` local of the source). -/
def safeKey (key : String) : String :=
  if needsQuotes key then "\"" ++ key ++ "\"" else key

/-- `TypeGenerator.inferPrimitiveType`, dispatching on the `typeof` tag.
The source additionally tests string values against URL / email / UUID
shapes, but every one of those branches returns the same `"string"`, so the
string case collapses to that constant. Values whose `typeof` tag is none of
`string` / `number` / `boolean` / `bigint` / `symbol` (i.e. `null`,
`undefined`, arrays, objects, all tagged `object` or `undefined`) fall
through to `"unknown"`. The `Number.isInteger` test of the source returns
`"number"` on both branches and collapses likewise. -/
def inferPrimitiveType : JsValue → String
  | .str _ => "string"
  | .num _ => "number"
  | .bool _ => "boolean"
  | .bigint _ => "bigint"
  | .sym _ => "symbol"
  | _ => "unknown"

/-- Element-wise image of `inferPrimitiveType` over an array
(`value.map(v => this.inferPrimitiveType(v))`). -/
def arrPrimTypes : JsArr → List String
  | .nil => []
  | .cons v rest => inferPrimitiveType v :: arrPrimTypes rest

mutual
/-- `TypeGenerator.inferType`: recursive inference on a value. The
`options` argument is threaded exactly as in the source (it is only passed
on to recursive calls). -/
def inferType (strict : Bool) (options : TypeGenerationOptions) : JsValue → String
  | .null => if strict then "null" else "null | undefined"
  | .undef => "undefined"
  | .arr .nil => if strict then "never[]" else "unknown[]"
  | .arr (.cons v rest) =>
    let types := dedupFirst [] (arrPrimTypes (.cons v rest))
    if types.length = 1 then types.headD ("") ++ "[]"
    else "(" ++ joinSep (" | ") types ++ ")[]"
  | .obj fields => "\x7b " ++ joinSep ("; ") (inferFields strict options fields) ++ " \x7d"
  | v => inferPrimitiveType v

/-- The `props` list of the anonymous-object branch of `inferType`:
one `key: type` entry per field, in insertion order. -/
def inferFields (strict : Bool) (options : TypeGenerationOptions) : JsObj → List String
  | .nil => []
  | .cons k v rest =>
    (safeKey k ++ ": " ++ inferType strict options v) :: inferFields strict options rest
end

/-- The `properties` list of `TypeGenerator.generateInterface`: one
`  readonly? key: type;` line per field, in insertion order. -/
def generateProps (strict : Bool) (options : TypeGenerationOptions) : JsObj → List String
  | .nil => []
  | .cons k v rest =>
    ("  " ++ (if options.readonly = some true then "readonly " else "") ++
      safeKey k ++ ": " ++ inferType strict options v ++ ";") :: generateProps strict options rest

/-- `TypeGenerator.generateInterface`: root-level rendering. A `null` root,
an array root and a non-object root become `type` aliases; an object root
becomes an `interface` declaration. An empty array root is always
`unknown[]`; a non-empty array root is typed from its first element only. -/
def generateInterface (name : String) (obj : JsValue) (strict : Bool)
    (options : TypeGenerationOptions) : String :=
  match obj with
  | .null => "type " ++ name ++ " = null;"
  | .arr .nil => "type " ++ name ++ " = unknown[];"
  | .arr (.cons v _) => "type " ++ name ++ " = " ++ inferType strict options v ++ "[];"
  | .obj fields =>
    "interface " ++ name ++ " \x7b\n" ++
      joinSep ("\n") (generateProps strict options fields) ++ "\n\x7d"
  | v => "type " ++ name ++ " = " ++ inferType strict options v ++ ";"

/-- The `data` argument of `generate`: either a string (to be JSON-parsed)
or an already-structured runtime value. -/
inductive JsInput where
  | strVal (s : String)
  | jsonVal (v : JsValue)

/-- `options.name || 'Generated'`: JavaScript `||` takes the fallback for
the empty string as well, because the empty string is falsy. -/
def resolveName (o : Option String) : String :=
  match o with
  | some n => if n = "" then "Generated" else n
  | none => "Generated"

/-- `TypeGenerator.generate`. A string input is parsed with the external
`parse` collaborator (`JSON.parse`); a parse failure is caught and re-thrown
as an `Invalid JSON data: …` error. `generateInterface` itself is total, so
the catch only ever fires for failing string inputs. `strict` defaults to
true (`options.strict !== false`). -/
def generate (parse : String → Except String JsValue) (data : JsInput)
    (options : TypeGenerationOptions) : Except String String :=
  let name := resolveName options.name
  let strict : Bool := options.strict != some false
  match data with
  | .jsonVal v => .ok (generateInterface name v strict options)
  | .strVal s =>
    match parse s with
    | .ok v => .ok (generateInterface name v strict options)
    | .error e => .error ("Invalid JSON data: " ++ e)

/-! ## Error diagnosis (`TypeGenerator.analyzeTypeError`) -/

/-- Result record of `analyzeTypeError`. -/
structure DiagnosticResult where
  fixes : List String
  explanation : String
deriving DecidableEq

/-- `TypeGenerator.analyzeTypeError`: first-match-wins over the ordered
category chain of the source (`if … else if … else`). The Property and
Cannot-find-name categories push their fixes only when the quoted-identifier
capture of their regular expression succeeds, exactly as in the source. -/
def analyzeTypeError (error : String) : DiagnosticResult :=
  if strIncludes error ("| undefined") && strIncludes error ("not assignable") then
    { fixes :=
        ["Add null check: if (value !== undefined) \x7b ... \x7d",
         "Use non-null assertion if guaranteed: value!",
         "Provide default value: value ?? defaultValue",
         "Update type to accept undefined: Type | undefined"],
      explanation := "The value may be undefined. Either guard against it, assert it's defined, provide a default, or update the type signature." }
  else if strIncludes error ("null") && strIncludes error ("not assignable") then
    { fixes :=
        ["Add null check: if (value !== null) \x7b ... \x7d",
         "Use nullish coalescing: value ?? defaultValue",
         "Update type to accept null: Type | null"],
      explanation := "The value may be null. Handle it explicitly or update the type signature." }
  else if strIncludes error ("Property") && strIncludes error ("does not exist") then
    match matchProperty error with
    | some (prop, ty) =>
      { fixes :=
          ["Add property to interface: " ++ prop ++ ": Type",
           "Use type assertion: (obj as any)." ++ prop,
           "Optional chaining: obj?." ++ prop,
           "Type guard: if ('" ++ prop ++ "' in obj) \x7b ... \x7d"],
        explanation := "The property '" ++ prop ++ "' is not defined on type '" ++ ty ++
          "'. Add it to the type definition or use runtime checks." }
    | none => { fixes := [], explanation := "" }
  else if strIncludes error ("Argument of type") && strIncludes error ("not assignable") then
    { fixes :=
        ["Type assertion: value as ExpectedType",
         "Type guard to narrow type before call",
         "Update function parameter type",
         "Convert value to expected type"],
      explanation := "The argument type doesn't match the parameter type. Convert the value or update type signatures." }
  else if strIncludes error ("any") &&
      (strIncludes error ("implicitly") || strIncludes error ("not allowed")) then
    { fixes :=
        ["Add explicit type annotation",
         "Use unknown instead of any",
         "Define proper interface for the object"],
      explanation := "Using \"any\" defeats TypeScript's type safety. Add explicit types or use \"unknown\" with type guards." }
  else if strIncludes error ("Cannot find name") then
    match matchCannotFind error with
    | some nm =>
      { fixes :=
          ["Import the identifier: import \x7b " ++ nm ++ " \x7d from '...'",
           "Define the identifier: const " ++ nm ++ " = ...",
           "Check for typos in the identifier name"],
        explanation := "The identifier is not defined in the current scope. Import it or define it." }
    | none =>
      { fixes := [],
        explanation := "The identifier is not defined in the current scope. Import it or define it." }
  else
    { fixes :=
        ["Review type signatures and ensure compatibility",
         "Use type assertions if you're certain of the type",
         "Add type guards for runtime type checking"],
      explanation := "Type mismatch detected. Review the types involved and ensure they're compatible." }

/-- The two degenerate routes of `analyzeTypeError` on which its fix list
comes out empty: the Property category with a failing quoted-identifier
capture, and the Cannot-find-name category with a failing capture. The
guards mirror the category chain so that the predicate is true exactly when
`analyzeTypeError` takes one of those two routes. -/
def degenerateCapture (error : String) : Bool :=
  if strIncludes error ("| undefined") && strIncludes error ("not assignable") then false
  else if strIncludes error ("null") && strIncludes error ("not assignable") then false
  else if strIncludes error ("Property") && strIncludes error ("does not exist") then
    (matchProperty error).isNone
  else if strIncludes error ("Argument of type") && strIncludes error ("not assignable") then false
  else if strIncludes error ("any") &&
      (strIncludes error ("implicitly") || strIncludes error ("not allowed")) then false
  else if strIncludes error ("Cannot find name") then (matchCannotFind error).isNone
  else false

/-! ## Heuristic text tests (the regular expressions of the dispatch server) -/

/-- Character class `\w` = `[A-Za-z0-9_]`. -/
def isWordChar (c : Char) : Bool := c.isAlphanum || c = '_'

/-- Character class `\s` (whitespace). -/
def isSpaceChar (c : Char) : Bool := c.isWhitespace

/-- Consume one or more characters of a class (`X+`, greedy); fails when the
head does not belong to the class. Deterministic because every use below is
followed by a literal outside the class. -/
def dropClass1 (p : Char → Bool) : List Char → Option (List Char)
  | [] => none
  | c :: rest => if p c then some (rest.dropWhile p) else none

/-- Run a positional boolean matcher at every start position, as an
unanchored regular-expression `test` does. -/
def scanTest (f : List Char → Bool) : List Char → Bool
  | [] => f []
  | c :: rest => f (c :: rest) || scanTest f rest

/-- Positional matcher for `/: \w+/`. -/
def colonWordAt : List Char → Bool
  | ':' :: ' ' :: c :: _ => isWordChar c
  | _ => false

/-- Test of `/: \w+/` against the whole snippet. -/
def colonWordTest (s : String) : Bool := scanTest colonWordAt s.data

/-- Positional matcher for `/function\s+\w+\([^)]*\)\s*\x7b/`: the literal
`function`, one or more whitespace characters, a word, a parenthesised
argument list without closing parentheses inside, optional whitespace, an
opening brace. Every greedy class is followed by a literal outside the
class, so the match is deterministic. -/
def funcDeclAt (l : List Char) : Bool :=
  (do
    let l1 ← dropLit ("function".data) l
    let l2 ← dropClass1 isSpaceChar l1
    let l3 ← dropClass1 isWordChar l2
    let l4 ← dropLit ("(".data) l3
    let l5 ← dropLit (")".data) (l4.dropWhile (fun c => c ≠ ')'))
    dropLit ("\x7b".data) (l5.dropWhile isSpaceChar)).isSome

/-- Test of `/function\s+\w+\([^)]*\)\s*\x7b/` against the whole snippet. -/
def funcDeclTest (s : String) : Bool := scanTest funcDeclAt s.data

/-- Positional matcher for `/const \w+ = \x7b/`. -/
def constObjAt (l : List Char) : Bool :=
  (do
    let l1 ← dropLit ("const ".data) l
    let l2 ← dropClass1 isWordChar l1
    dropLit (" = \x7b".data) l2).isSome

/-- Test of `/const \w+ = \x7b/` against the whole snippet. -/
def constObjTest (s : String) : Bool := scanTest constObjAt s.data

/-- Positional matcher for `/interface.*extends/`: the literal `interface`
followed by `extends` later on the same line (`.` does not match a
newline). -/
def interfaceExtendsAt (l : List Char) : Bool :=
  match dropLit ("interface".data) l with
  | none => false
  | some l1 => hasSub ("extends".data) (l1.takeWhile (fun c => c ≠ '\n'))

/-- Test of `/interface.*extends/` against the whole snippet. -/
def interfaceExtendsTest (s : String) : Bool := scanTest interfaceExtendsAt s.data

/-! ## MCP protocol model (src `index.ts`) -/

/-- A JSON-RPC identifier: a string or a number. -/
inductive RId where
  | str (s : String)
  | num (n : Int)
deriving DecidableEq

/-- The `error` member of a response. -/
structure MCPError where
  code : Int
  message : String
deriving DecidableEq

/-- The `result` member of a response: the initialize metadata, the tool
catalogue (identified by the tool names it lists), or a single text content
block (`\x7b content: [\x7b type: 'text', text \x7d] \x7d`). -/
inductive MCPResult where
  | initInfo (protocolVersion : String) (serverName : String) (serverVersion : String)
  | toolList (names : List String)
  | content (text : String)
deriving DecidableEq

/-- A response object. `JSON.stringify` drops absent (`undefined`) members,
so each member is an `Option`; the bare `\x7b\x7d` returned for
`notifications/initialized` is the record with all members absent. -/
structure MCPResponse where
  id : Option RId := none
  result : Option MCPResult := none
  error : Option MCPError := none
deriving DecidableEq

/-- The arguments object of a `tools/call` request, carrying the union of
the fields the six tool handlers destructure. `data` models the
`generate_types` payload (absent ⇒ the JavaScript `undefined` value);
`name` / `strict` / `readonly` are its optional companions; `error`, `code`
and `framework` are the (schema-required) string arguments of the other
tools, modelled as present. -/
structure ToolArgs where
  data : JsInput := .jsonVal .undef
  name : Option String := none
  strict : Option Bool := none
  readonly : Option Bool := none
  error : String := ""
  code : String := ""
  framework : String := ""

/-- The `params` member of a `tools/call` request (`name` and `arguments`). -/
structure ToolCallParams where
  name : String := ""
  arguments : ToolArgs := {}

/-- A parsed request line. A request whose `id` is absent is a
notification. -/
structure MCPRequest where
  id : Option RId := none
  method : String := ""
  params : ToolCallParams := {}

/-- An entry of the external framework-pattern catalogue. -/
structure FrameworkPattern where
  framework : String
  pattern : String
  code : String
  description : String

/-- `TSPilotMCP.handleGenerateTypes`: runs the generator and wraps the
declaration in the presentation text; a generator failure propagates to the
`callTool` boundary. -/
def handleGenerateTypes (parse : String → Except String JsValue) (args : ToolArgs) :
    Except String String :=
  match generate parse args.data
      { name := args.name, strict := args.strict, readonly := args.readonly } with
  | .ok generated =>
    .ok ("## 🎯 Generated TypeScript Types\n\n```typescript\n" ++ generated ++
      "\n```\n\n✅ Generated with strict type safety (no `any` types)")
  | .error e => .error e

/-- `TSPilotMCP.handleFixTypeErrors`: renders the diagnostic result, with
the fixes numbered from 1. -/
def handleFixTypeErrors (args : ToolArgs) : String :=
  let r := analyzeTypeError args.error
  "## 🔧 Type Error Analysis\n\n**Error:**\n`" ++ args.error ++
    "`\n\n**Explanation:**\n" ++ r.explanation ++ "\n\n**Suggested Fixes:**\n" ++
    String.join (r.fixes.enum.map (fun p => "\n" ++ toString (p.1 + 1) ++ ". " ++ p.2))

/-- The ordered refactor-advisory rules of `TSPilotMCP.handleRefactorSafe`:
independent predicates, evaluated in the fixed source order with no early
exit. -/
def refactorSuggestions (code : String) : List String :=
  (if strIncludes code ("any") then
    ["⚠️  Replace `any` types with specific types or `unknown`"] else []) ++
  (if strIncludes code ("as any") then
    ["⚠️  Remove unsafe type assertions (`as any`) and use proper type guards"] else []) ++
  (if funcDeclTest code && !strIncludes code (": ") then
    ["📝 Add return type annotations to functions for better type safety"] else []) ++
  (if strIncludes code ("?.") && !strIncludes code ("??") then
    ["💡 Consider using nullish coalescing (`??`) with optional chaining for defaults"] else []) ++
  (if constObjTest code then
    ["💡 Consider defining explicit interfaces for object literals used multiple times"] else []) ++
  (if strIncludes code ("Promise") && !strIncludes code ("async") then
    ["💡 Use async/await instead of raw Promises for better readability"] else [])

/-- `TSPilotMCP.handleRefactorSafe`: the no-suggestions sentinel when no
rule fires, else the numbered advisory list. -/
def handleRefactorSafe (args : ToolArgs) : String :=
  let suggestions := refactorSuggestions args.code
  if suggestions.isEmpty then "✅ Code looks good! No major refactoring suggestions."
  else "## 🔄 Type-Safe Refactoring Suggestions\n\n" ++
    joinSep ("\n") (suggestions.enum.map (fun p => toString (p.1 + 1) ++ ". " ++ p.2))

/-- The ordered generic-opportunity rules of
`TSPilotMCP.handleSuggestGenerics`. -/
def suggestGenericsSuggestions (code : String) : List String :=
  (if strIncludes code ("function") && strIncludes code ("unknown") then
    ["Replace `unknown` with generic type parameter:\n```typescript\nfunction process<T>(data: T): T \x7b\n  return data;\n\x7d\n```"]
   else []) ++
  (if strIncludes code ("any[]") || strIncludes code ("unknown[]") then
    ["Use generic array types:\n```typescript\nfunction filter<T>(items: T[], predicate: (item: T) => boolean): T[] \x7b\n  return items.filter(predicate);\n\x7d\n```"]
   else []) ++
  (if interfaceExtendsTest code then
    ["Consider generic constraints for reusable interfaces:\n```typescript\ninterface Repository<T extends \x7b id: number \x7d> \x7b\n  findById(id: number): Promise<T>;\n  save(entity: T): Promise<T>;\n\x7d\n```"]
   else [])

/-- `TSPilotMCP.handleSuggestGenerics`: the no-opportunities sentinel when
no rule fires, else the suggestions joined by blank lines. -/
def handleSuggestGenerics (args : ToolArgs) : String :=
  let suggestions := suggestGenericsSuggestions args.code
  if suggestions.isEmpty then
    "💡 No obvious generic opportunities found. Consider making reusable functions generic when they work with multiple types."
  else "## 🎯 Generic Type Suggestions\n\n" ++ joinSep ("\n\n") suggestions

/-- The ordered strict-mode compliance rules of
`TSPilotMCP.handleCheckStrict`. -/
def checkStrictIssues (code : String) : List String :=
  (if strIncludes code (": any") then
    ["❌ Explicit `any` type found - violates strict mode"] else []) ++
  (if strIncludes code ("as any") then
    ["❌ Unsafe type assertion `as any` - defeats type safety"] else []) ++
  (if !colonWordTest code && strIncludes code ("=") then
    ["⚠️  Missing type annotations on variables"] else []) ++
  (if strIncludes code ("function") && !strIncludes code (": ") then
    ["⚠️  Missing return type annotations on functions"] else []) ++
  (if strIncludes code ("null") && !strIncludes code ("| null") then
    ["⚠️  Potential null values not reflected in types"] else []) ++
  (if strIncludes code ("undefined") && !strIncludes code ("| undefined") &&
      !strIncludes code ("?:") then
    ["⚠️  Potential undefined values not reflected in types"] else [])

/-- `TSPilotMCP.handleCheckStrict`: the compliant sentinel when no rule
fires, else the numbered issue list followed by the tsconfig
recommendation. -/
def handleCheckStrict (args : ToolArgs) : String :=
  let issues := checkStrictIssues args.code
  if issues.isEmpty then "✅ Code is strict mode compliant! No issues found."
  else "## ⚙️  Strict Mode Compliance Check\n\n" ++
    joinSep ("\n") (issues.enum.map (fun p => toString (p.1 + 1) ++ ". " ++ p.2)) ++
    "\n\n**Recommendation:**\nEnable strict mode in tsconfig.json:\n```json\n\x7b\n  \"compilerOptions\": \x7b\n    \"strict\": true,\n    \"noImplicitAny\": true,\n    \"strictNullChecks\": true\n  \x7d\n\x7d\n```"

/-- `TSPilotMCP.handleFrameworkPatterns`: looks the framework up in the
external catalogue collaborator (passed in as `patterns`) and renders the
entries, or a not-found text for an empty lookup. -/
def handleFrameworkPatterns (patterns : String → List FrameworkPattern)
    (args : ToolArgs) : String :=
  let ps := patterns args.framework
  if ps.isEmpty then "No patterns found for framework: " ++ args.framework
  else "## 📚 " ++ args.framework.capitalize ++ " TypeScript Patterns\n\n" ++
    String.join (ps.enum.map (fun p =>
      "### " ++ toString (p.1 + 1) ++ ". " ++ p.2.pattern ++ "\n\n" ++
        p.2.description ++ "\n\n```typescript\n" ++ p.2.code ++ "\n```\n\n"))

/-- The `switch (name)` of `TSPilotMCP.callTool`: routes a tool name to its
handler; an unknown tool name throws `Unknown tool: …`. -/
def toolResult (parse : String → Except String JsValue)
    (patterns : String → List FrameworkPattern) (name : String) (args : ToolArgs) :
    Except String String :=
  if name = "generate_types" then handleGenerateTypes parse args
  else if name = "fix_type_errors" then .ok (handleFixTypeErrors args)
  else if name = "refactor_safe" then .ok (handleRefactorSafe args)
  else if name = "suggest_generics" then .ok (handleSuggestGenerics args)
  else if name = "check_strict" then .ok (handleCheckStrict args)
  else if name = "framework_patterns" then .ok (handleFrameworkPatterns patterns args)
  else .error ("Unknown tool: " ++ name)

/-- `TSPilotMCP.callTool`: wraps a handler success as a text-content result
response and catches any thrown error as an internal-error response with
code `-32603`, both carrying the request identifier. -/
def callTool (parse : String → Except String JsValue)
    (patterns : String → List FrameworkPattern) (request : MCPRequest) : MCPResponse :=
  match toolResult parse patterns request.params.name request.params.arguments with
  | .ok text => { id := request.id, result := some (.content text) }
  | .error msg => { id := request.id, error := some { code := -32603, message := msg } }

/-- The six tool names advertised by `tools/list`. -/
def toolNames : List String :=
  ["generate_types", "fix_type_errors", "refactor_safe", "suggest_generics",
   "check_strict", "framework_patterns"]

/-- `TSPilotMCP.handleRequest`: the method switch. `initialize`,
`tools/list` and `tools/call` answer with the request identifier;
`notifications/initialized` returns the bare empty object (`\x7b\x7d as
MCPResponse`); any other method yields the `-32601` method-not-found error
response. The surrounding try/catch never fires in this model because every
branch is total (`callTool` already catches its handlers). -/
def handleRequest (parse : String → Except String JsValue)
    (patterns : String → List FrameworkPattern) (request : MCPRequest) : MCPResponse :=
  if request.method = "initialize" then
    { id := request.id, result := some (.initInfo ("2025-06-18") ("ts-pilot") ("1.0.0")) }
  else if request.method = "notifications/initialized" then {}
  else if request.method = "tools/list" then
    { id := request.id, result := some (.toolList toolNames) }
  else if request.method = "tools/call" then callTool parse patterns request
  else
    { id := request.id,
      error := some { code := -32601, message := "Method not found: " ++ request.method } }

/-- The `rl.on('line')` handler, per parsed request: a request without an
identifier is still dispatched but nothing is written to stdout; a request
with an identifier has the `handleRequest` response serialized to exactly
one stdout line. -/
def emittedResponse (parse : String → Except String JsValue)
    (patterns : String → List FrameworkPattern) (request : MCPRequest) :
    Option MCPResponse :=
  match request.id with
  | none => none
  | some _ => some (handleRequest parse patterns request)

/-! ## Substring infrastructure for the no-`any` invariant -/

/-- The character list of the escape type `any`. -/
def anyChars : List Char := ['a', 'n', 'y']

/-- `hasSub` decides contiguous containment (`List.IsInfix`). -/
theorem hasSub_iff (p l : List Char) : hasSub p l = true ↔ p <:+: l := by
  induction l with
  | nil => simp [hasSub, List.isEmpty_iff, List.infix_nil]
  | cons c l ih =>
    simp only [hasSub, Bool.or_eq_true, List.isPrefixOf_iff_prefix, ih, List.infix_cons_iff]

/-- Negative form of `hasSub_iff`. -/
theorem hasSub_eq_false (p l : List Char) : hasSub p l = false ↔ ¬ p <:+: l := by
  rw [← hasSub_iff]
  cases h : hasSub p l <;> simp

/-- An occurrence inside an append lies in the left part, in the right
part, or spans the boundary (a non-trivial split of the pattern with the
first piece a suffix of the left part and the second a prefix of the
right part). -/
theorem infix_append_split {p x y : List Char} (h : p <:+: x ++ y) :
    p <:+: x ∨ p <:+: y ∨
      ∃ p₁ p₂, p = p₁ ++ p₂ ∧ p₁ ≠ [] ∧ p₂ ≠ [] ∧ p₁ <:+ x ∧ p₂ <+: y := by
  obtain ⟨s, t, hst⟩ := h
  rw [List.append_assoc, List.append_eq_append_iff] at hst
  rcases hst with ⟨a', ha, hpt⟩ | ⟨c', _, hy⟩
  · rw [List.append_eq_append_iff] at hpt
    rcases hpt with ⟨b', hb, _⟩ | ⟨c₂, hp, hyc⟩
    · refine Or.inl ⟨s, b', ?_⟩
      rw [ha, hb, List.append_assoc]
    · by_cases ha' : a' = []
      · subst ha'
        simp only [List.nil_append] at hp
        refine Or.inr (Or.inl (List.IsPrefix.isInfix ⟨t, ?_⟩))
        rw [hp]
        exact hyc.symm
      · by_cases hc₂ : c₂ = []
        · subst hc₂
          rw [List.append_nil] at hp
          refine Or.inl ?_
          rw [hp]
          exact List.IsSuffix.isInfix ⟨s, ha.symm⟩
        · exact Or.inr (Or.inr ⟨a', c₂, hp, ha', hc₂, ⟨s, ha.symm⟩, ⟨t, hyc.symm⟩⟩)
  · refine Or.inr (Or.inl ⟨c', t, ?_⟩)
    rw [List.append_assoc]
    exact hy.symm

/-- The only splits of `any` into two non-empty pieces. -/
theorem anyChars_split {p₁ p₂ : List Char} (h : p₁ ++ p₂ = anyChars)
    (h1 : p₁ ≠ []) (h2 : p₂ ≠ []) :
    (p₁ = ['a'] ∧ p₂ = ['n', 'y']) ∨ (p₁ = ['a', 'n'] ∧ p₂ = ['y']) := by
  rcases p₁ with _ | ⟨c1, _ | ⟨c2, _ | ⟨c3, rest⟩⟩⟩
  · exact absurd rfl h1
  · simp only [anyChars, List.cons_append, List.nil_append, List.cons.injEq] at h
    exact Or.inl ⟨by rw [h.1], h.2⟩
  · simp only [anyChars, List.cons_append, List.nil_append, List.cons.injEq] at h
    exact Or.inr ⟨by rw [h.1, h.2.1], h.2.2⟩
  · simp only [anyChars, List.cons_append, List.nil_append, List.cons.injEq] at h
    exact absurd (List.append_eq_nil.mp h.2.2.2).2 h2

/-- Appending cannot create an occurrence of `any` when the right part does
not begin with `'n'` or `'y'` (no boundary-spanning occurrence is
possible). -/
theorem hasSub_any_append_right {x y : List Char}
    (hx : hasSub anyChars x = false) (hy : hasSub anyChars y = false)
    (hh : y.head? ≠ some 'n' ∧ y.head? ≠ some 'y') :
    hasSub anyChars (x ++ y) = false := by
  rw [hasSub_eq_false] at hx hy ⊢
  intro h
  rcases infix_append_split h with h | h | ⟨p₁, p₂, hp, h1, h2, _, hpy⟩
  · exact hx h
  · exact hy h
  · rcases anyChars_split hp.symm h1 h2 with ⟨_, hp2⟩ | ⟨_, hp2⟩
    · subst hp2
      obtain ⟨t, ht⟩ := hpy
      apply hh.1
      rw [← ht]
      rfl
    · subst hp2
      obtain ⟨t, ht⟩ := hpy
      apply hh.2
      rw [← ht]
      rfl

/-- Appending cannot create an occurrence of `any` when the left part does
not end in `'a'` or `'n'` (no boundary-spanning occurrence is possible). -/
theorem hasSub_any_append_left {x y : List Char}
    (hx : hasSub anyChars x = false) (hy : hasSub anyChars y = false)
    (hl : x.getLast? ≠ some 'a' ∧ x.getLast? ≠ some 'n') :
    hasSub anyChars (x ++ y) = false := by
  rw [hasSub_eq_false] at hx hy ⊢
  intro h
  rcases infix_append_split h with h | h | ⟨p₁, p₂, hp, h1, h2, hsx, _⟩
  · exact hx h
  · exact hy h
  · rcases anyChars_split hp.symm h1 h2 with ⟨hp1, _⟩ | ⟨hp1, _⟩
    · subst hp1
      obtain ⟨s, hs⟩ := hsx
      apply hl.1
      rw [← hs]
      simp [List.getLast?_concat]
    · subst hp1
      obtain ⟨s, hs⟩ := hsx
      apply hl.2
      rw [← hs, show s ++ ['a', 'n'] = (s ++ ['a']) ++ ['n'] by simp]
      simp [List.getLast?_concat]

/-- String append acts componentwise on the underlying character lists. -/
theorem strData_append (a b : String) : (a ++ b).data = a.data ++ b.data := rfl

/-- `hasSub_any_append_right` lifted to strings. -/
theorem strClean_append_right {x y : String}
    (hx : hasSub anyChars x.data = false) (hy : hasSub anyChars y.data = false)
    (hh : y.data.head? ≠ some 'n' ∧ y.data.head? ≠ some 'y') :
    hasSub anyChars (x ++ y).data = false := by
  rw [strData_append]
  exact hasSub_any_append_right hx hy hh

/-- `hasSub_any_append_left` lifted to strings. -/
theorem strClean_append_left {x y : String}
    (hx : hasSub anyChars x.data = false) (hy : hasSub anyChars y.data = false)
    (hl : x.data.getLast? ≠ some 'a' ∧ x.data.getLast? ≠ some 'n') :
    hasSub anyChars (x ++ y).data = false := by
  rw [strData_append]
  exact hasSub_any_append_left hx hy hl

/-- The last character of an append with a non-empty right string is the
right one's. -/
theorem strLast_append (x y : String) (h : y.data ≠ []) :
    (x ++ y).data.getLast? = y.data.getLast? := by
  rw [strData_append]
  exact List.getLast?_append_of_ne_nil _ h

/-- Tail-safety (no trailing `'a'` / `'n'`) transfers from a non-empty
right string to the whole append. -/
theorem strLast_safe_of_append (x y : String) (hne : y.data ≠ [])
    (h1 : y.data.getLast? ≠ some 'a') (h2 : y.data.getLast? ≠ some 'n') :
    (x ++ y).data.getLast? ≠ some 'a' ∧ (x ++ y).data.getLast? ≠ some 'n' := by
  rw [strLast_append x y hne]
  exact ⟨h1, h2⟩

/-- A join over a separator that is `any`-free, non-empty, and safe at both
edges is `any`-free whenever every joined element is. -/
theorem joinSep_any_clean (sep : String)
    (hsep : hasSub anyChars sep.data = false)
    (hhead : sep.data.head? ≠ some 'n' ∧ sep.data.head? ≠ some 'y')
    (hlast : sep.data.getLast? ≠ some 'a' ∧ sep.data.getLast? ≠ some 'n')
    (hne : sep.data ≠ []) :
    ∀ l : List String, (∀ s ∈ l, hasSub anyChars s.data = false) →
      hasSub anyChars (joinSep sep l).data = false
  | [], _ => by simp only [joinSep]; decide
  | [x], h => h x (by simp)
  | x :: y :: rest, h => by
    have hx := h x (by simp)
    have hrest : hasSub anyChars (joinSep sep (y :: rest)).data = false :=
      joinSep_any_clean sep hsep hhead hlast hne (y :: rest)
        (fun s hs => h s (List.mem_cons_of_mem x hs))
    simp only [joinSep]
    exact strClean_append_left (strClean_append_right hx hsep hhead) hrest
      (strLast_safe_of_append x sep hne hlast.1 hlast.2)

mutual
/-- Hypothesis carving object keys out of the no-`any` claim: every object
key occurring anywhere in the value is free of the character run `any`
(keys are input data rendered verbatim into the declaration text, so they
are not rendered *types*). -/
def cleanKeys : JsValue → Bool
  | .arr a => cleanKeysArr a
  | .obj o => cleanKeysObj o
  | _ => true

/-- `cleanKeys` over array elements. -/
def cleanKeysArr : JsArr → Bool
  | .nil => true
  | .cons v rest => cleanKeys v && cleanKeysArr rest

/-- `cleanKeys` over object entries. -/
def cleanKeysObj : JsObj → Bool
  | .nil => true
  | .cons k v rest => !(hasSub anyChars k.data) && (cleanKeys v && cleanKeysObj rest)
end

/-- Every primitive-type name the generator can choose is free of `any`
(in particular the unrecognized-tag fallback is `unknown`, not `any`). -/
theorem inferPrimitiveType_clean (v : JsValue) :
    hasSub anyChars (inferPrimitiveType v).data = false := by
  cases v <;> rfl

/-- De-duplication only returns elements of its input. -/
theorem dedupFirst_mem {x : String} : ∀ seen l, x ∈ dedupFirst seen l → x ∈ l := by
  intro seen l
  induction l generalizing seen with
  | nil => simp [dedupFirst]
  | cons a l ih =>
    simp only [dedupFirst]
    split
    · exact fun h => List.mem_cons_of_mem _ (ih _ h)
    · intro h
      rcases List.mem_cons.mp h with h | h
      · simp [h]
      · exact List.mem_cons_of_mem _ (ih _ h)

/-- Every element-type string of an array comes from `inferPrimitiveType`. -/
theorem arrPrimTypes_mem {s : String} : ∀ a, s ∈ arrPrimTypes a → ∃ v, s = inferPrimitiveType v
  | .nil, h => by simp [arrPrimTypes] at h
  | .cons v rest, h => by
    simp only [arrPrimTypes, List.mem_cons] at h
    rcases h with h | h
    · exact ⟨v, h⟩
    · exact arrPrimTypes_mem rest h

/-- A rendered key is free of `any` when the raw key is: quoting only adds
a double quote on both sides. -/
theorem safeKey_clean {k : String} (h : hasSub anyChars k.data = false) :
    hasSub anyChars (safeKey k).data = false := by
  unfold safeKey
  split
  · exact strClean_append_right (strClean_append_left (by decide) h (by decide))
      (by decide) (by decide)
  · exact h

/-- The de-duplicated element-type list of a non-empty array is `any`-free
elementwise. -/
theorem dedupPrimTypes_clean (a : JsArr) :
    ∀ s ∈ dedupFirst [] (arrPrimTypes a), hasSub anyChars s.data = false := by
  intro s hs
  obtain ⟨w, hw⟩ := arrPrimTypes_mem a (dedupFirst_mem _ _ hs)
  rw [hw]
  exact inferPrimitiveType_clean w

mutual
/-- Every type expression `inferType` renders is free of the character run
`any`, provided the object keys of the value are. -/
theorem inferType_clean (strict : Bool) (options : TypeGenerationOptions) :
    ∀ v : JsValue, cleanKeys v = true →
      hasSub anyChars (inferType strict options v).data = false
  | .null, _ => by cases strict <;> rfl
  | .undef, _ => by rfl
  | .bool b, _ => by rfl
  | .num q, _ => by rfl
  | .str s, _ => by rfl
  | .bigint i, _ => by rfl
  | .sym s, _ => by rfl
  | .arr .nil, _ => by cases strict <;> rfl
  | .arr (.cons v rest), _ => by
    have hall := dedupPrimTypes_clean (.cons v rest)
    simp only [inferType]
    split
    · refine strClean_append_right ?_ (by decide) (by decide)
      cases hts : dedupFirst [] (arrPrimTypes (JsArr.cons v rest)) with
      | nil => decide
      | cons a t => exact hall a (by rw [hts]; exact List.mem_cons_self a t)
    · refine strClean_append_right
        (strClean_append_left (by decide) ?_ (by decide)) (by decide) (by decide)
      exact joinSep_any_clean (" | ") (by decide) (by decide) (by decide) (by decide)
        _ hall
  | .obj fields, h => by
    have h' : cleanKeysObj fields = true := by
      simpa [cleanKeys] using h
    simp only [inferType]
    refine strClean_append_right (strClean_append_left (by decide) ?_ (by decide))
      (by decide) (by decide)
    exact joinSep_any_clean ("; ") (by decide) (by decide) (by decide) (by decide)
      _ (inferFields_clean strict options fields h')

/-- Every `key: type` entry of an inline record is free of `any`, provided
the keys are. -/
theorem inferFields_clean (strict : Bool) (options : TypeGenerationOptions) :
    ∀ o : JsObj, cleanKeysObj o = true →
      ∀ s ∈ inferFields strict options o, hasSub anyChars s.data = false
  | .nil, _ => by simp [inferFields]
  | .cons k v rest, h => by
    simp only [cleanKeysObj, Bool.and_eq_true, Bool.not_eq_true'] at h
    obtain ⟨hk, hv, hrest⟩ := h
    intro s hs
    simp only [inferFields, List.mem_cons] at hs
    rcases hs with rfl | hs
    · have ht := inferType_clean strict options v hv
      refine strClean_append_left (strClean_append_right (safeKey_clean hk)
        (by decide) (by decide)) ht ?_
      exact strLast_safe_of_append _ (": ") (by decide) (by decide) (by decide)
    · exact inferFields_clean strict options rest hrest s hs
end

/-- Every property line of a generated interface body is free of `any`,
provided the keys are. -/
theorem generateProps_clean (strict : Bool) (options : TypeGenerationOptions) :
    ∀ o : JsObj, cleanKeysObj o = true →
      ∀ s ∈ generateProps strict options o, hasSub anyChars s.data = false
  | .nil, _ => by simp [generateProps]
  | .cons k v rest, h => by
    simp only [cleanKeysObj, Bool.and_eq_true, Bool.not_eq_true'] at h
    obtain ⟨hk, hv, hrest⟩ := h
    intro s hs
    simp only [generateProps, List.mem_cons] at hs
    rcases hs with rfl | hs
    · have ht := inferType_clean strict options v hv
      have hpre : hasSub anyChars ("  " ++
          (if options.readonly = some true then "readonly " else "")).data = false := by
        split <;> decide
      have hpreL : ("  " ++
          (if options.readonly = some true then "readonly " else "")).data.getLast? ≠ some 'a' ∧
          ("  " ++
          (if options.readonly = some true then "readonly " else "")).data.getLast? ≠ some 'n' := by
        split <;> exact ⟨by decide, by decide⟩
      refine strClean_append_right (strClean_append_left (strClean_append_right
        (strClean_append_left hpre (safeKey_clean hk) hpreL)
        (by decide) (by decide)) ht ?_) (by decide) (by decide)
      exact strLast_safe_of_append _ (": ") (by decide) (by decide) (by decide)
    · exact generateProps_clean strict options rest hrest s hs

/-- The full declaration text rendered by `generateInterface` is free of
the character run `any`, provided the declared name and the object keys
are. -/
theorem generateInterface_clean (name : String) (v : JsValue) (strict : Bool)
    (options : TypeGenerationOptions)
    (hn : hasSub anyChars name.data = false) (hv : cleanKeys v = true) :
    hasSub anyChars (generateInterface name v strict options).data = false := by
  have hname : hasSub anyChars ("type " ++ name).data = false :=
    strClean_append_left (by decide) hn (by decide)
  cases v with
  | null =>
    exact strClean_append_right hname (by decide) (by decide)
  | arr a =>
    cases a with
    | nil => exact strClean_append_right hname (by decide) (by decide)
    | cons w rest =>
      have hw : cleanKeys w = true := by
        have : cleanKeysArr (.cons w rest) = true := by simpa [cleanKeys] using hv
        simp only [cleanKeysArr, Bool.and_eq_true] at this
        exact this.1
      have ht := inferType_clean strict options w hw
      refine strClean_append_right (strClean_append_left
        (strClean_append_right hname (by decide) (by decide)) ht ?_)
        (by decide) (by decide)
      exact strLast_safe_of_append _ (" = ") (by decide) (by decide) (by decide)
  | obj fields =>
    have h' : cleanKeysObj fields = true := by simpa [cleanKeys] using hv
    have hJ := joinSep_any_clean ("\n") (by decide) (by decide) (by decide) (by decide)
      _ (generateProps_clean strict options fields h')
    have hhead : hasSub anyChars ("interface " ++ name).data = false :=
      strClean_append_left (by decide) hn (by decide)
    refine strClean_append_right (strClean_append_left
      (strClean_append_right hhead (by decide) (by decide)) hJ ?_) (by decide) (by decide)
    exact strLast_safe_of_append _ (" \x7b\n") (by decide) (by decide) (by decide)
  | undef =>
    refine strClean_append_right (strClean_append_left
      (strClean_append_right hname (by decide) (by decide)) (by rfl) ?_)
      (by decide) (by decide)
    exact strLast_safe_of_append _ (" = ") (by decide) (by decide) (by decide)
  | bool b =>
    refine strClean_append_right (strClean_append_left
      (strClean_append_right hname (by decide) (by decide)) (by rfl) ?_)
      (by decide) (by decide)
    exact strLast_safe_of_append _ (" = ") (by decide) (by decide) (by decide)
  | num q =>
    refine strClean_append_right (strClean_append_left
      (strClean_append_right hname (by decide) (by decide)) (by rfl) ?_)
      (by decide) (by decide)
    exact strLast_safe_of_append _ (" = ") (by decide) (by decide) (by decide)
  | str s =>
    refine strClean_append_right (strClean_append_left
      (strClean_append_right hname (by decide) (by decide)) (by rfl) ?_)
      (by decide) (by decide)
    exact strLast_safe_of_append _ (" = ") (by decide) (by decide) (by decide)
  | bigint i =>
    refine strClean_append_right (strClean_append_left
      (strClean_append_right hname (by decide) (by decide)) (by rfl) ?_)
      (by decide) (by decide)
    exact strLast_safe_of_append _ (" = ") (by decide) (by decide) (by decide)
  | sym s =>
    refine strClean_append_right (strClean_append_left
      (strClean_append_right hname (by decide) (by decide)) (by rfl) ?_)
      (by decide) (by decide)
    exact strLast_safe_of_append _ (" = ") (by decide) (by decide) (by decide)

/-! ## Claim theorems -/

/-- A concrete stand-in for the external `JSON.parse` collaborator, used to
instantiate the parse-parametric theorems at closed inputs. -/
def jsonParseStub : String → Except String JsValue := fun _ => Except.error ("not parsed")

/-- A concrete stand-in for the external framework-pattern catalogue. -/
def patternsStub : String → List FrameworkPattern := fun _ => []

/-- C1 (counterexample): the message `Property does not exist` contains the
substrings `Property` and `does not exist`, so it is routed to the
Property category, but the quoted-identifier capture fails and no fix is
pushed: `analyzeTypeError` returns an empty fix list, contradicting the
claim that the fix list is non-empty for every input. -/
theorem c1_counterexample : (analyzeTypeError ("Property does not exist")).fixes = [] := by
  decide

/-- C1 (amended): `analyzeTypeError` returns a non-empty fix list for every
input except the two degenerate routes (the Property category or the
Cannot-find-name category reached with a failing quoted-identifier
capture); in particular the empty string falls through to the generic
fallback category and receives its three fixes. -/
theorem c1_fixes_nonempty (s : String) (h : degenerateCapture s = false) :
    (analyzeTypeError s).fixes ≠ [] := by
  by_cases h1 : (strIncludes s ("| undefined") && strIncludes s ("not assignable")) = true
  · simp [analyzeTypeError, h1]
  · by_cases h2 : (strIncludes s ("null") && strIncludes s ("not assignable")) = true
    · simp [analyzeTypeError, h1, h2]
    · by_cases h3 : (strIncludes s ("Property") && strIncludes s ("does not exist")) = true
      · have hm : (matchProperty s).isNone = false := by
          simpa [degenerateCapture, h1, h2, h3] using h
        simp only [analyzeTypeError, if_neg h1, if_neg h2, if_pos h3]
        cases hmp : matchProperty s with
        | none => rw [hmp] at hm; simp at hm
        | some pt => cases pt with
          | mk p t => simp
      · by_cases h4 : (strIncludes s ("Argument of type") && strIncludes s ("not assignable")) = true
        · simp [analyzeTypeError, h1, h2, h3, h4]
        · by_cases h5 : (strIncludes s ("any") &&
              (strIncludes s ("implicitly") || strIncludes s ("not allowed"))) = true
          · simp [analyzeTypeError, h1, h2, h3, h4, h5]
          · by_cases h6 : strIncludes s ("Cannot find name") = true
            · have hm : (matchCannotFind s).isNone = false := by
                simpa [degenerateCapture, h1, h2, h3, h4, h5, h6] using h
              simp only [analyzeTypeError, if_neg h1, if_neg h2, if_neg h3, if_neg h4,
                if_neg h5, if_pos h6]
              cases hmc : matchCannotFind s with
              | none => rw [hmc] at hm; simp at hm
              | some nm => simp
            · simp [analyzeTypeError, h1, h2, h3, h4, h5, h6]

/-- C1 (witness): the empty string is not a degenerate route and receives a
non-empty fix list. -/
theorem c1_fixes_nonempty_witness :
    degenerateCapture ("") = false ∧ (analyzeTypeError ("")).fixes ≠ [] :=
  ⟨by decide, c1_fixes_nonempty ("") (by decide)⟩

/-- C2 (counterexample): with `strict := true`, an empty array root is still
rendered as the unknown-array alias `type Generated = unknown[];` — not a
never-array (empty-tuple) alias, contradicting the claimed strict-mode
behaviour. -/
theorem c2_counterexample :
    generate jsonParseStub (.jsonVal (.arr .nil)) { strict := some true } =
      .ok ("type Generated = unknown[];") ∧
    strIncludes ("type Generated = unknown[];") ("never") = false :=
  ⟨rfl, by decide⟩

/-- C2 (amended): for an empty array root, `generate` emits the
unknown-array alias regardless of the `strict` option (the root-level
empty-array branch of `generateInterface` never consults `strict`). -/
theorem c2_empty_root_array (parse : String → Except String JsValue)
    (options : TypeGenerationOptions) :
    generate parse (.jsonVal (.arr .nil)) options =
      .ok ("type " ++ resolveName options.name ++ " = unknown[];") := rfl

/-- C5 (counterexample): for the root array `[1, "a"]` handed to the
generator, the element type is inferred from the first element only, giving
`type Generated = number[];` — not a parenthesized two-member union. -/
theorem c5_counterexample :
    generate jsonParseStub (.jsonVal (.arr (.cons (.num 1) (.cons (.str ("a")) .nil)))) {} =
      .ok ("type Generated = number[];") ∧
    strIncludes ("type Generated = number[];") ("(number | string)") = false :=
  ⟨rfl, by decide⟩

/-- C5 (amended): the de-duplicated first-seen union `(number | string)[]`
is produced for the array `[1, "a"]` only by the nested-array path
(`inferType`); at the root, `generateInterface` types the array from its
first element alone, yielding `number[]`. -/
theorem c5_union_nested_vs_root (strict : Bool) (options : TypeGenerationOptions)
    (name : String) :
    inferType strict options (.arr (.cons (.num 1) (.cons (.str ("a")) .nil))) =
      "(number | string)[]" ∧
    generateInterface name (.arr (.cons (.num 1) (.cons (.str ("a")) .nil))) strict options =
      "type " ++ name ++ " = " ++ "number" ++ "[];" :=
  ⟨rfl, rfl⟩

/-- C6: `generate` fails (raises) exactly when its `data` argument is a
string that the JSON parser rejects; every structured (non-string) value
and every successfully parsed string produces a declaration. -/
theorem c6_invalid_input_iff (parse : String → Except String JsValue) (data : JsInput)
    (options : TypeGenerationOptions) :
    (∃ e, generate parse data options = .error e) ↔
    (∃ s msg, data = .strVal s ∧ parse s = .error msg) := by
  cases data with
  | jsonVal v => simp [generate]
  | strVal s =>
    cases hp : parse s with
    | ok v => simp [generate, hp]
    | error m => simp [generate, hp]

/-- C10: a nested empty array is typed `never[]` under `strict` and
`unknown[]` otherwise, while the root-level empty array is rendered
`unknown[]` independently of the options; the strictness sensitivity shows
up in the property line generated for an object field holding an empty
array. -/
theorem c10_nested_empty_array (strict : Bool) (options : TypeGenerationOptions)
    (parse : String → Except String JsValue) (k : String) :
    inferType true options (.arr .nil) = "never[]" ∧
    inferType false options (.arr .nil) = "unknown[]" ∧
    generate parse (.jsonVal (.arr .nil)) options =
      .ok ("type " ++ resolveName options.name ++ " = unknown[];") ∧
    generateProps strict options (.cons k (.arr .nil) .nil) =
      ["  " ++ (if options.readonly = some true then "readonly " else "") ++ safeKey k ++
        ": " ++ (if strict then "never[]" else "unknown[]") ++ ";"] :=
  ⟨rfl, rfl, rfl, rfl⟩

/-- C3 (counterexample): a request for `notifications/initialized` that
carries identifier 1 does get exactly one emitted response, but that
response is the bare empty object: it does not carry the request's
identifier, contradicting the claim for this method. -/
theorem c3_counterexample :
    emittedResponse jsonParseStub patternsStub
      { id := some (RId.num 1), method := "notifications/initialized" } =
      some { id := none, result := none, error := none } ∧
    ({ id := none, result := none, error := none } : MCPResponse).id ≠ some (RId.num 1) :=
  ⟨rfl, by decide⟩

/-- C3 (amended): every identifier-carrying request gets exactly one
emitted response; for every method other than `notifications/initialized`
that response carries the same identifier and exactly one of a result or
an error, while `notifications/initialized` is answered with the empty
object carrying no identifier at all. -/
theorem c3_response_id (parse : String → Except String JsValue)
    (patterns : String → List FrameworkPattern) (req : MCPRequest) (i : RId)
    (h : req.id = some i) :
    (req.method = "notifications/initialized" →
      emittedResponse parse patterns req = some { id := none, result := none, error := none }) ∧
    (req.method ≠ "notifications/initialized" →
      ∃ r, emittedResponse parse patterns req = some r ∧ r.id = some i ∧
        (r.result.isSome ↔ r.error = none)) := by
  have hemit : emittedResponse parse patterns req = some (handleRequest parse patterns req) := by
    simp [emittedResponse, h]
  constructor
  · intro hm
    rw [hemit]
    simp +decide [handleRequest, hm]
  · intro hm
    rw [hemit]
    by_cases h1 : req.method = "initialize"
    · exact ⟨_, rfl, by simp +decide [handleRequest, h1, h], by simp +decide [handleRequest, h1]⟩
    · by_cases h3 : req.method = "tools/list"
      · exact ⟨_, rfl, by simp +decide [handleRequest, h1, h3, hm, h],
          by simp +decide [handleRequest, h1, h3, hm]⟩
      · by_cases h4 : req.method = "tools/call"
        · cases hres : toolResult parse patterns req.params.name req.params.arguments with
          | ok text =>
            exact ⟨_, rfl, by simp +decide [handleRequest, callTool, hres, h1, h3, hm, h4, h],
              by simp +decide [handleRequest, callTool, hres, h1, h3, hm, h4]⟩
          | error msg =>
            exact ⟨_, rfl, by simp +decide [handleRequest, callTool, hres, h1, h3, hm, h4, h],
              by simp +decide [handleRequest, callTool, hres, h1, h3, hm, h4]⟩
        · exact ⟨_, rfl, by simp +decide [handleRequest, h1, h3, hm, h4, h],
            by simp +decide [handleRequest, h1, h3, hm, h4]⟩

/-- C3 (witness): a concrete `tools/list` request with identifier 7 is
answered by exactly one response carrying identifier 7 and a result. -/
theorem c3_response_id_witness :
    ∃ r, emittedResponse jsonParseStub patternsStub
        { id := some (RId.num 7), method := "tools/list" } = some r ∧
      r.id = some (RId.num 7) ∧ (r.result.isSome ↔ r.error = none) :=
  (c3_response_id jsonParseStub patternsStub
    { id := some (RId.num 7), method := "tools/list" } (RId.num 7) rfl).2 (by decide)

/-- C4 (counterexample): a `tools/call` request naming the unknown
operation `nonexistent_tool` is answered with the internal-failure code
`-32603` (`Unknown tool: …`), not the method-not-found code `-32601`,
contradicting the claim that names outside the six-tool set get the
method-not-found code. -/
theorem c4_counterexample :
    handleRequest jsonParseStub patternsStub
      { id := some (RId.num 1), method := "tools/call",
        params := { name := "nonexistent_tool" } } =
      { id := some (RId.num 1),
        error := some { code := -32603, message := "Unknown tool: nonexistent_tool" } } ∧
    (-32603 : Int) ≠ -32601 :=
  ⟨by decide, by decide⟩

/-- C4 (amended): an unknown top-level method gets the fixed
method-not-found code `-32601` with a human-readable message; an unknown
tool name inside `tools/call` (the dispatch route of the six catalogued
operations) gets the distinct internal-failure code `-32603` with the
message `Unknown tool: …`. -/
theorem c4_error_codes (parse : String → Except String JsValue)
    (patterns : String → List FrameworkPattern) (req : MCPRequest) (nm : String)
    (i : Option RId) (args : ToolArgs) :
    (req.method ∉ (["initialize", "notifications/initialized", "tools/list",
        "tools/call"] : List String) →
      (handleRequest parse patterns req).error =
        some { code := -32601, message := "Method not found: " ++ req.method }) ∧
    (nm ∉ toolNames →
      (handleRequest parse patterns
          { id := i, method := "tools/call",
            params := { name := nm, arguments := args } }).error =
        some { code := -32603, message := "Unknown tool: " ++ nm }) ∧
    (-32601 : Int) ≠ -32603 := by
  refine ⟨?_, ?_, by decide⟩
  · intro hmem
    simp only [List.mem_cons, List.not_mem_nil, or_false, not_or] at hmem
    obtain ⟨n1, n2, n3, n4⟩ := hmem
    simp [handleRequest, n1, n2, n3, n4]
  · intro hmem
    simp only [toolNames, List.mem_cons, List.not_mem_nil, or_false, not_or] at hmem
    obtain ⟨m1, m2, m3, m4, m5, m6⟩ := hmem
    simp +decide [handleRequest, callTool, toolResult, m1, m2, m3, m4, m5, m6]

/-- C4 (witness): the unknown method `frobnicate` gets code `-32601`; the
unknown tool name `foo_tool` gets code `-32603`. -/
theorem c4_error_codes_witness :
    (handleRequest jsonParseStub patternsStub
        { id := some (RId.num 2), method := "frobnicate" }).error =
      some { code := -32601, message := "Method not found: " ++ "frobnicate" } ∧
    (handleRequest jsonParseStub patternsStub
        { id := some (RId.num 3), method := "tools/call",
          params := { name := "foo_tool", arguments := {} } }).error =
      some { code := -32603, message := "Unknown tool: " ++ "foo_tool" } ∧
    (-32601 : Int) ≠ -32603 :=
  ⟨(c4_error_codes jsonParseStub patternsStub
      { id := some (RId.num 2), method := "frobnicate" } ("foo_tool")
      (some (RId.num 3)) {}).1 (by decide),
   (c4_error_codes jsonParseStub patternsStub
      { id := some (RId.num 2), method := "frobnicate" } ("foo_tool")
      (some (RId.num 3)) {}).2.1 (by decide),
   (c4_error_codes jsonParseStub patternsStub
      { id := some (RId.num 2), method := "frobnicate" } ("foo_tool")
      (some (RId.num 3)) {}).2.2⟩

/-- C8: a request without an identifier (a notification) never produces an
emitted response line, whatever the parser, the catalogue, the method and
the arguments do — in particular when the routed handler raises. -/
theorem c8_notification_silent (parse : String → Except String JsValue)
    (patterns : String → List FrameworkPattern) (req : MCPRequest)
    (h : req.id = none) :
    emittedResponse parse patterns req = none := by
  simp [emittedResponse, h]

/-- C8 (witness): an identifier-less `generate_types` call whose handler
raises (its data is an unparsable string) still emits nothing. -/
theorem c8_notification_silent_witness :
    ({ id := none, method := "tools/call",
       params := { name := "generate_types",
                   arguments := { data := .strVal ("not json") } } } : MCPRequest).id = none ∧
    emittedResponse jsonParseStub patternsStub
      { id := none, method := "tools/call",
        params := { name := "generate_types",
                    arguments := { data := .strVal ("not json") } } } = none :=
  ⟨rfl, c8_notification_silent jsonParseStub patternsStub
    { id := none, method := "tools/call",
      params := { name := "generate_types",
                  arguments := { data := .strVal ("not json") } } } rfl⟩

/-- C7: for every structured value whose object keys (and resolved
declaration name) are free of the character run `any` — keys are raw input
echoed into the text, not rendered types — `generate` succeeds and its
declaration text contains no occurrence of `any` at all: every field and
alias type is drawn from the concrete primitive names, `unknown`
(the unrecognized-tag fallback), `never[]`/`unknown[]`, unions and inline
records of these. -/
theorem c7_no_any_rendered (parse : String → Except String JsValue) (v : JsValue)
    (options : TypeGenerationOptions)
    (hname : strIncludes (resolveName options.name) ("any") = false)
    (hkeys : cleanKeys v = true) :
    ∃ out, generate parse (.jsonVal v) options = .ok out ∧
      strIncludes out ("any") = false := by
  refine ⟨generateInterface (resolveName options.name) v (options.strict != some false)
    options, rfl, ?_⟩
  exact generateInterface_clean (resolveName options.name) v
    (options.strict != some false) options hname hkeys

/-- C7 (witness): a concrete object with a nested record, an array and an
empty array renders with no `any` anywhere. -/
theorem c7_no_any_rendered_witness :
    strIncludes (resolveName (some ("User"))) ("any") = false ∧
    cleanKeys (.obj (.cons ("id") (.num 1) (.cons ("tags")
      (.arr (.cons (.str ("x")) (.cons (.num 2) .nil)))
      (.cons ("meta") (.obj (.cons ("ok") (.bool true) .nil))
      (.cons ("empty") (.arr .nil) .nil))))) = true ∧
    ∃ out, generate jsonParseStub (.jsonVal (.obj (.cons ("id") (.num 1) (.cons ("tags")
        (.arr (.cons (.str ("x")) (.cons (.num 2) .nil)))
        (.cons ("meta") (.obj (.cons ("ok") (.bool true) .nil))
        (.cons ("empty") (.arr .nil) .nil)))))) { name := some ("User") } = .ok out ∧
      strIncludes out ("any") = false :=
  ⟨by decide, by decide,
   c7_no_any_rendered jsonParseStub (.obj (.cons ("id") (.num 1) (.cons ("tags")
      (.arr (.cons (.str ("x")) (.cons (.num 2) .nil)))
      (.cons ("meta") (.obj (.cons ("ok") (.bool true) .nil))
      (.cons ("empty") (.arr .nil) .nil))))) { name := some ("User") }
      (by decide) (by decide)⟩

/-- A rendered non-sentinel report (which starts with `#`) is never equal
to a sentinel string (which starts with a different character). -/
theorem append_ne_of_first_char {x y s : String} (hx : x.data.head? = some '#')
    (hs : s.data.head? ≠ some '#') (hne : x.data ≠ []) : x ++ y ≠ s := by
  intro h
  apply hs
  rw [← h, strData_append, List.head?_append_of_ne_nil _ hne]
  exact hx

/-- C9: every snippet containing the substring `: any` triggers the first
strict-mode compliance rule and the first refactor rule, so `check_strict`
reports at least one issue (not the compliant sentinel) and `refactor_safe`
reports at least one advisory (not the no-suggestions sentinel). -/
theorem c9_colon_any_findings (code : String) (h : strIncludes code (": any") = true) :
    checkStrictIssues code ≠ [] ∧
    handleCheckStrict { code := code } ≠ "✅ Code is strict mode compliant! No issues found." ∧
    refactorSuggestions code ≠ [] ∧
    handleRefactorSafe { code := code } ≠ "✅ Code looks good! No major refactoring suggestions." := by
  have hany : strIncludes code ("any") = true := by
    rw [strIncludes, hasSub_iff] at h ⊢
    have hsub : ("any".data) <:+: (": any".data) := by decide
    exact hsub.trans h
  have hcs : checkStrictIssues code ≠ [] := by
    simp [checkStrictIssues, h]
  have hrs : refactorSuggestions code ≠ [] := by
    simp [refactorSuggestions, hany]
  refine ⟨hcs, ?_, hrs, ?_⟩
  · simp only [handleCheckStrict]
    rw [if_neg (by simpa [List.isEmpty_iff] using hcs)]
    refine append_ne_of_first_char ?_ (by decide) ?_
    · rw [strData_append, List.head?_append_of_ne_nil _ (by decide)]
      decide
    · rw [strData_append]
      exact fun hnil => absurd (List.append_eq_nil.mp hnil).1 (by decide)
  · simp only [handleRefactorSafe]
    rw [if_neg (by simpa [List.isEmpty_iff] using hrs)]
    exact append_ne_of_first_char (by decide) (by decide) (by decide)

/-- C9 (witness): the snippet `const x: any = 1;` produces at least one
compliance issue and one refactor advisory, and neither sentinel. -/
theorem c9_colon_any_findings_witness :
    strIncludes ("const x: any = 1;") (": any") = true ∧
    (checkStrictIssues ("const x: any = 1;") ≠ [] ∧
     handleCheckStrict { code := "const x: any = 1;" } ≠
       "✅ Code is strict mode compliant! No issues found." ∧
     refactorSuggestions ("const x: any = 1;") ≠ [] ∧
     handleRefactorSafe { code := "const x: any = 1;" } ≠
       "✅ Code looks good! No major refactoring suggestions.") :=
  ⟨by decide, c9_colon_any_findings ("const x: any = 1;") (by decide)⟩
